import Mathlib

/-!
Verification of `rename_mp3s_main.py` (MP3 renamer driven by ID3 tags).

Shallow embedding conventions:
* Python strings are modelled as `List Char` (`Str`).  Every place the source
  distinguishes a missing tag (`None`) from a value does so through Python
  truthiness (`if not x`), for which `None` and the empty string behave
  identically, so both are modelled as `[]`.
* The tag object returned by `easyid3.EasyID3` is modelled as a record of the
  nine tag keys the program reads (`f.get(key, [default])[0]` becomes a field
  lookup with `[]` for an absent key).
* The filesystem visible to `os.path.exists` at plan time is a list of paths.
  Mutations performed by the execution phase (`os.makedirs`, `os.rename`) are
  tracked in an explicit `FsState`.
* Exceptions are modelled with `Except String`.  The `try/except` in
  `process_mp3` runs a handler that evaluates the local `f` (the tag object):
  when the exception came from `easyid3.EasyID3` itself, `f` was never
  assigned, so the handler raises `UnboundLocalError`, which is not caught and
  aborts the run; otherwise the handler logs and the file is skipped.
* `pandas` operations are modelled directly: `DataFrame.from_records` of an
  empty list yields a frame with no columns, so `sort_values('new_filename')`
  raises `KeyError` — the model propagates that as an `Except.error`.
-/

/-- Python strings, modelled as lists of characters. -/
abbrev Str := List Char

/-- The character class of the `PUNCTUATION` regex `[:!@#$%^&*/\\?<>"]`. -/
def PUNCTUATION : List Char := [':', '!', '@', '#', '$', '%', '^', '&', '*', '/', '\\', '?', '<', '>', '\"']

/-- `MAX_NAME_LENGTH = 60`. -/
def MAX_NAME_LENGTH : Nat := 60

/-- One step of `PUNCTUATION.sub('_', name)`: replace a punctuation character by `_`. -/
def replPunct (c : Char) : Char := if c ∈ PUNCTUATION then '_' else c

/-- `PUNCTUATION.sub('_', name)`: replace every punctuation character by `_`. -/
def subPunct (s : Str) : Str := s.map replPunct

/-- `normalize_name(name, missing_value)` from the source:
empty/absent input yields `missing_value`; otherwise punctuation is replaced
with `_` and the result truncated to `MAX_NAME_LENGTH` characters. -/
def normalize_name (name : Str) (missing_value : Str) : Str :=
  if name = [] then missing_value
  else
    let name := subPunct name
    if MAX_NAME_LENGTH < name.length then name.take MAX_NAME_LENGTH else name

/-- The `missing_value` arguments used at the normalization call sites of
`process_mp3` (lines 76–83); `[]` is the `None` passed for `albumartist`. -/
def sentinels : List Str :=
  ["UNKNOWN_GENRE".toList, "UNKNOWN_ARTIST".toList, "UNKNOWN_ARTISTSORT".toList, [],
   "UNKNOWN_YEAR".toList, "UNKNOWN_ALBUM".toList, "UNKNOWN_TRACK".toList, "UNKNOWN_TITLE".toList]

/-- The tag keys read by `process_mp3` from the `EasyID3` object.
`f.get(key, [default])[0]` is modelled as a field lookup; `[]` stands both for
an absent key and for a present-but-empty first value (the source only ever
distinguishes values through Python truthiness, for which the two coincide). -/
structure Tags where
  genre : Str := []
  artistsort : Str := []
  artist : Str := []
  albumartist : Str := []
  date : Str := []
  year : Str := []
  album : Str := []
  tracknumber : Str := []
  title : Str := []
deriving DecidableEq, Repr

/-- The `'PREEXISTING FILE'` marker stored in `record['collision']`. -/
def PREEXISTING_FILE : Str := "PREEXISTING FILE".toList

/-- One planned file move, mirroring the keys of the per-file `OrderedDict`
(the raw tag dump copied in by `record.update(f)` is diagnostic only and not
modelled). -/
structure Record where
  original_filename : Str
  new_filename : Str
  name_changed : Bool
  collision : Option Str
deriving DecidableEq, Repr

/-- Python's `str.split('/')` (always returns at least one, possibly empty, piece). -/
def splitOnSlash : Str → List Str
  | [] => [[]]
  | c :: cs =>
    match splitOnSlash cs with
    | [] => [[]]
    | h :: t => if c = '/' then [] :: h :: t else (c :: h) :: t

/-- Whitespace stripped by Python's `int()` around the literal. -/
def isPySpace (c : Char) : Bool := c = ' ' ∨ c = '\t' ∨ c = '\n' ∨ c = '\r'

/-- Digits of a decimal literal, most significant first. -/
def digitsToNat (ds : Str) : Nat := ds.foldl (fun n c => 10 * n + (c.toNat - '0'.toNat)) 0

/-- Python's `int(s)`: strips surrounding whitespace, accepts an optional sign
followed by decimal digits, raises `ValueError` otherwise.  (Python 3 also
accepts `_` separators between digits; no behaviour verified here depends on
that, so they are treated as a parse failure.) -/
def pyInt (s : Str) : Except String Int :=
  let t := ((s.dropWhile isPySpace).reverse.dropWhile isPySpace).reverse
  let signDigits : Int × Str :=
    match t with
    | '-' :: rest => (-1, rest)
    | '+' :: rest => (1, rest)
    | rest => (1, rest)
  if signDigits.2 ≠ [] ∧ signDigits.2.all Char.isDigit then
    .ok (signDigits.1 * (digitsToNat signDigits.2 : Int))
  else .error "ValueError: invalid literal for int() with base 10"

/-- Fuel-bounded digit expansion (structural recursion so that the kernel can
evaluate it; fuel `n + 1` always suffices since `n / 10 < n` for `n ≥ 10`). -/
def natDigitsAux : Nat → Nat → Str
  | 0, _ => []
  | fuel + 1, n =>
    if n < 10 then [Char.ofNat ('0'.toNat + n)]
    else natDigitsAux fuel (n / 10) ++ [Char.ofNat ('0'.toNat + n % 10)]

/-- Decimal digits of a natural number (used to model `str`/format of ints). -/
def natDigits (n : Nat) : Str := natDigitsAux (n + 1) n

/-- Python's `str(n)` for an int. -/
def intStr (n : Int) : Str := if n < 0 then '-' :: natDigits n.natAbs else natDigits n.natAbs

/-- The f-string field `f'{track_number:02}'`: zero-pad the decimal form to
width 2 (the sign counts toward the width, as in Python). -/
def pad02 (n : Int) : Str := let s := intStr n; if s.length < 2 then '0' :: s else s

/-- Lines 65–71 of the source: compute `track_string` from the `tracknumber`
tag.  An absent/empty tag keeps the `'UNKNOWN_TRACK'` initialization; otherwise
the tag is split on `/`, `int(track_split[0])` may raise `ValueError`, and the
`track_width = len(track_split[1])` line (computed but unused, `# TODO`)
raises `IndexError` when the tag has no `/`. -/
def track_string_of (tracknumber : Str) : Except String Str :=
  if tracknumber = [] then .ok "UNKNOWN_TRACK".toList
  else
    let track_split := splitOnSlash tracknumber
    match track_split[0]? with
    | none => .error "IndexError: list index out of range"
    | some first =>
      match pyInt first with
      | .error e => .error e
      | .ok track_number =>
        match track_split[1]? with
        | none => .error "IndexError: list index out of range"
        | some second =>
          let _track_width := second.length
          .ok (pad02 track_number)

/-- The prefix match `DATE_TO_YEAR.match(year)` of the regex
`([12][0-9][0-9][0-9])-[0-1][0-9]-[0-3][0-9]`; on success `m.group(1)` is the
4-digit year.  (`re.match` anchors at the start only, so trailing characters
are allowed.) -/
def dateToYearMatch : Str → Option Str
  | y1 :: y2 :: y3 :: y4 :: '-' :: m1 :: m2 :: '-' :: d1 :: d2 :: _ =>
    if (y1 = '1' ∨ y1 = '2') ∧ y2.isDigit ∧ y3.isDigit ∧ y4.isDigit
       ∧ (m1 = '0' ∨ m1 = '1') ∧ m2.isDigit
       ∧ (d1 = '0' ∨ d1 = '1' ∨ d1 = '2' ∨ d1 = '3') ∧ d2.isDigit
    then some [y1, y2, y3, y4] else none
  | _ => none

/-- `os.path.join(a, b)` for POSIX paths as used here (a second absolute
component replaces the first). -/
def pathJoin (a b : Str) : Str :=
  if b.head? = some '/' then b
  else if a = [] ∨ a.getLast? = some '/' then a ++ b
  else a ++ '/' :: b

/-- Lines 53–54 and 78 of the source: the artist value used for the directory
segment of the album-artist-absent template — `artistsort` falling back to
`artist` when falsy, then normalized with the `'UNKNOWN_ARTISTSORT'` sentinel. -/
def artist_for_sort (artistsort artist : Str) : Str :=
  normalize_name (if artistsort = [] then artist else artistsort) "UNKNOWN_ARTISTSORT".toList

/-- Lines 85–88 of the source: the naming template, selected by truthiness of
the normalized `albumartist`.  All arguments are the already-normalized fields. -/
def choose_new_name (genre albumartist artistsort artist year album track_string title : Str) : Str :=
  if albumartist ≠ [] then
    genre ++ '/' :: albumartist ++ '/' :: year ++ " - ".toList ++ album ++ '/' :: album
      ++ " - ".toList ++ year ++ " - ".toList ++ track_string ++ " - ".toList ++ artist
      ++ " - ".toList ++ title ++ ".mp3".toList
  else
    genre ++ '/' :: artistsort ++ '/' :: year ++ " - ".toList ++ album ++ '/' :: artist
      ++ " - ".toList ++ year ++ " - ".toList ++ album ++ " - ".toList ++ track_string
      ++ " - ".toList ++ title ++ ".mp3".toList

/-- The straight-line part of `process_mp3`'s body after `track_string` has
been computed: field resolution, normalization, template choice, and the
assembled `Record` (lines 45–101).  `fs` is the set of paths existing on disk
when `os.path.exists` is consulted. -/
def build_record (filename dest_dir_base : Str) (tags : Tags) (fs : List Str)
    (track_string : Str) : Record :=
  let genre := if tags.genre = [] then "UNKNOWN_GENRE".toList else tags.genre
  let artistsort := if tags.artistsort = [] then tags.artist else tags.artistsort
  let year := match dateToYearMatch tags.date with | some y => y | none => tags.date
  let year := if year = [] then (if tags.year = [] then "UNKNOWN_YEAR".toList else tags.year) else year
  let album := if tags.album = [] then "UNKNOWN_ALBUM".toList else tags.album
  let title := if tags.title = [] then "UNKNOWN_TITLE".toList else tags.title
  let genre := normalize_name genre "UNKNOWN_GENRE".toList
  let artist := normalize_name tags.artist "UNKNOWN_ARTIST".toList
  let artistsort := normalize_name artistsort "UNKNOWN_ARTISTSORT".toList
  let albumartist := normalize_name tags.albumartist []
  let year := normalize_name year "UNKNOWN_YEAR".toList
  let album := normalize_name album "UNKNOWN_ALBUM".toList
  let track_string := normalize_name track_string "UNKNOWN_TRACK".toList
  let title := normalize_name title "UNKNOWN_TITLE".toList
  let new_name := choose_new_name genre albumartist artistsort artist year album track_string title
  let new_filename := pathJoin dest_dir_base new_name
  let name_changed := decide (new_filename ≠ filename)
  { original_filename := filename
    new_filename := new_filename
    name_changed := name_changed
    collision := if name_changed && decide (new_filename ∈ fs) then some PREEXISTING_FILE else none }

/-- The fallible body of `process_mp3` (everything inside the `try`): `tags?`
is `none` when `easyid3.EasyID3(filename)` itself raises; track parsing may
raise `ValueError`/`IndexError`. -/
def process_mp3_body (filename dest_dir_base : Str) (tags? : Option Tags) (fs : List Str) :
    Except String Record :=
  match tags? with
  | none => .error "MutagenError: could not open tag structure"
  | some tags =>
    match track_string_of tags.tracknumber with
    | .error e => .error e
    | .ok track_string => .ok (build_record filename dest_dir_base tags fs track_string)

/-- Observable output of a run: `logging` lines and `print` lines.  Filesystem
mutations are not output; they are tracked separately in `FsState`. -/
inductive Event where
  /-- `logging.error('Failure processing file: …')` for one skipped file. -/
  | logFileError (filename : Str)
  /-- `logging.error('Pre-existing collisions, stopping:…')` with the offending `new_filename` values. -/
  | logPreexisting (newPaths : List Str)
  /-- `logging.error('Would-be new collisions, stopping.')`. -/
  | logNewCollisions
  /-- `print` of `collisions_df[['original_filename']].to_csv(index=False, header=False, sep='\t')`:
  one original path per line. -/
  | printCsv (lines : List Str)
  /-- `print('mv "%s" "%s"' % (orig, new))`. -/
  | printMv (src dst : Str)
  /-- an `assert` in the move loop fails, terminating the run abnormally. -/
  | assertFail (payload : Str)
deriving DecidableEq, Repr

/-- The `try/except` wrapper `process_mp3` (lines 41–103): on success the
record is appended to `records`.  On an exception the handler
`logging.error('Failure processing file: %s, tags=%s', filename, f, ...)`
evaluates the local `f`: if `easyid3.EasyID3(filename)` itself raised
(`tags? = none`), `f` was never assigned, so the handler raises
`UnboundLocalError`, which escapes `process_mp3` (modelled as `.error`);
otherwise `f` is bound, the failure is logged, and the record is dropped. -/
def process_mp3 (root item dest_dir_base : Str) (tags? : Option Tags) (fs : List Str)
    (records : List Record) : Except String (List Record × List Event) :=
  let filename := pathJoin root item
  match process_mp3_body filename dest_dir_base tags? fs with
  | .ok r => .ok (records ++ [r], [])
  | .error _ =>
    match tags? with
    | none => .error "UnboundLocalError: local variable f referenced before assignment"
    | some _ => .ok (records, [Event.logFileError filename])

/-- `item.lower().endswith('mp3')` (note: `'mp3'`, not `'.mp3'`). -/
def endsWithMp3 (item : Str) : Bool := "mp3".toList.isSuffixOf (item.map Char.toLower)

/-- One file produced by the `os.walk` scan: directory `root`, entry name
`item`, and the tag structure (`none` when opening it raises). -/
structure ScanItem where
  root : Str
  item : Str
  tags : Option Tags
deriving DecidableEq, Repr

/-- The scan loop of `process_mp3s` (lines 107–111): walk all entries, process
those whose lowercased name ends in `mp3`, collecting records and per-file
error logs in order.  An exception escaping `process_mp3` (the
`UnboundLocalError` of its handler) is not caught anywhere in the loop and
aborts the whole run (`.error`). -/
def collectRecords (dest_dir_base : Str) (fs : List Str) :
    List ScanItem → Except String (List Record × List Event)
  | [] => .ok ([], [])
  | it :: rest =>
    if endsWithMp3 it.item then
      match process_mp3 it.root it.item dest_dir_base it.tags fs [] with
      | .error e => .error e
      | .ok step =>
        match collectRecords dest_dir_base fs rest with
        | .error e => .error e
        | .ok acc => .ok (step.1 ++ acc.1, step.2 ++ acc.2)
    else collectRecords dest_dir_base fs rest

/-- `os.path.dirname(p)` (POSIX): everything before the last `/`, with
trailing slashes stripped unless the head is entirely slashes. -/
def dirname (p : Str) : Str :=
  let i := p.length - (p.reverse.takeWhile (· ≠ '/')).length
  let head := p.take i
  if head ≠ [] ∧ head.any (· ≠ '/') then (head.reverse.dropWhile (· = '/')).reverse
  else head

/-- Auxiliary, fuel-bounded iteration of `dirname` (the fuel is always
sufficient because `dirname` never lengthens a path). -/
def ancestorsAux : Nat → Str → List Str
  | 0, _ => []
  | n + 1, p => p :: (let d := dirname p; if d = p ∨ d = [] then [] else ancestorsAux n d)

/-- The directories `os.makedirs(p, exist_ok=True)` may create: `p` and every
ancestor directory of it. -/
def ancestors (p : Str) : List Str := ancestorsAux (p.length + 1) p

/-- Filesystem state threaded through the move loop: the set of existing paths
(files and directories), plus an audit trail of the directories created and
renames performed in this run. -/
structure FsState where
  paths : List Str
  dirs_made : List Str
  renames_done : List (Str × Str)
deriving DecidableEq, Repr

/-- `os.path.exists` against the current state. -/
def fsExists (st : FsState) (p : Str) : Bool := decide (p ∈ st.paths) || decide (p ∈ st.dirs_made)

/-- The untouched state for a filesystem `fs`. -/
def initState (fs : List Str) : FsState := ⟨fs, [], []⟩

/-- The move loop of `process_mp3s` (lines 129–136) over the already-filtered,
sorted records: assert no `"` in either path, print the `mv` line, assert the
target does not exist, and (unless `dry_run`) create the destination
directories and rename.  A failed `assert` raises and ends the run. -/
def execLoop (dry_run : Bool) : List Record → FsState → List Event → List Event × FsState
  | [], st, evs => (evs, st)
  | r :: rest, st, evs =>
    if '\"' ∈ r.original_filename then (evs ++ [Event.assertFail r.original_filename], st)
    else if '\"' ∈ r.new_filename then (evs ++ [Event.assertFail r.new_filename], st)
    else
      let evs := evs ++ [Event.printMv r.original_filename r.new_filename]
      if fsExists st r.new_filename then (evs ++ [Event.assertFail r.new_filename], st)
      else if dry_run then execLoop dry_run rest st evs
      else
        let d := dirname r.new_filename
        let st : FsState :=
          { paths := (st.paths.erase r.original_filename) ++ [r.new_filename]
            dirs_made := st.dirs_made ++ ancestors d
            renames_done := st.renames_done ++ [(r.original_filename, r.new_filename)] }
        execLoop dry_run rest st evs

/-- Strict lexicographic comparison of strings by code point, the order pandas
uses for `sort_values` on a string column. -/
def lexLt : Str → Str → Bool
  | [], [] => false
  | [], _ :: _ => true
  | _ :: _, [] => false
  | a :: as, b :: bs => if a = b then lexLt as bs else decide (a < b)

/-- `r` sorts no later than `s` under `sort_values('new_filename')`. -/
def recLe (r s : Record) : Prop := lexLt s.new_filename r.new_filename = false

instance : DecidableRel recLe := fun _ _ => instDecidableEqBool _ _

/-- The plan/execute phase of `process_mp3s` (lines 112–136), given the
collected records and the filesystem contents `fs`.  With zero records
`pd.DataFrame.from_records([])` has no columns and
`df.sort_values('new_filename')` raises `KeyError` (modelled as `.error`).
Otherwise: sort by `new_filename`; abort on pre-existing collisions (logging
their `new_filename`s); abort on same-run collisions (logging, then printing
the colliding `original_filename`s); else run the move loop on the
`name_changed` records. -/
def process_mp3s_plan (records : List Record) (fs : List Str) (dry_run : Bool) :
    Except String (List Event × FsState) :=
  if records = [] then .error "KeyError: 'new_filename'"
  else
    let sorted := List.insertionSort recLe records
    let preexisting := (sorted.filter (fun r => r.collision ≠ none)).map (·.new_filename)
    if preexisting ≠ [] then .ok ([Event.logPreexisting preexisting], initState fs)
    else
      let collRows := sorted.filter
        (fun r => 2 ≤ sorted.countP (fun s => decide (s.new_filename = r.new_filename)))
      if collRows ≠ [] then
        .ok ([Event.logNewCollisions, Event.printCsv (collRows.map (·.original_filename))],
          initState fs)
      else .ok (execLoop dry_run (sorted.filter (·.name_changed)) (initState fs) [])

/-- `process_mp3s` (lines 106–136): scan, then plan/execute.  On success the
result pairs the scan-phase log with the planner outcome; `.error` models an
uncaught exception escaping `process_mp3s` (the scan loop's
`UnboundLocalError` or the planner's `KeyError`). -/
def process_mp3s (items : List ScanItem) (dest_dir_base : Str) (fs : List Str) (dry_run : Bool) :
    Except String (List Event × (List Event × FsState)) :=
  match collectRecords dest_dir_base fs items with
  | .error e => .error e
  | .ok (records, evs) =>
    match process_mp3s_plan records fs dry_run with
    | .error e => .error e
    | .ok res => .ok (evs, res)

/-- All lines printed through the collision csv listing in a trace. -/
def printedCsvLines (evs : List Event) : List Str :=
  evs.foldr (fun e acc => match e with | Event.printCsv ls => ls ++ acc | _ => acc) []

/-! ### Properties of `normalize_name` -/

lemma replPunct_idem (c : Char) : replPunct (replPunct c) = replPunct c := by
  unfold replPunct
  by_cases h : c ∈ PUNCTUATION
  · simp [h, show '_' ∉ PUNCTUATION by decide]
  · simp [h]

lemma replPunct_not_punct (c : Char) : replPunct c ∉ PUNCTUATION := by
  unfold replPunct
  by_cases h : c ∈ PUNCTUATION
  · simp [h, show '_' ∉ PUNCTUATION by decide]
  · simp [h]

lemma subPunct_idem (s : Str) : subPunct (subPunct s) = subPunct s := by
  unfold subPunct
  rw [List.map_map]
  exact List.map_congr_left (fun c _ => replPunct_idem c)

lemma subPunct_length (s : Str) : (subPunct s).length = s.length := List.length_map _ _

lemma subPunct_no_punct (s : Str) : ∀ c ∈ subPunct s, c ∉ PUNCTUATION := by
  intro c hc
  obtain ⟨a, _, rfl⟩ := List.mem_map.mp hc
  exact replPunct_not_punct a

lemma subPunct_take (n : Nat) (s : Str) : subPunct (s.take n) = (subPunct s).take n := by
  unfold subPunct
  exact List.map_take ..

/-- The output of a nonempty-input normalization: nonempty, punctuation-free,
already punctuation-stable, and within the length bound. -/
lemma normalize_name_props (x m : Str) (hx : x ≠ []) :
    normalize_name x m ≠ [] ∧ subPunct (normalize_name x m) = normalize_name x m ∧
      (normalize_name x m).length ≤ MAX_NAME_LENGTH ∧
      (∀ c ∈ normalize_name x m, c ∉ PUNCTUATION) := by
  unfold normalize_name
  simp only [if_neg hx]
  by_cases h : MAX_NAME_LENGTH < (subPunct x).length
  · simp only [if_pos h]
    refine ⟨?_, ?_, ?_, ?_⟩
    · intro he
      have hl := congrArg List.length he
      rw [List.length_take, Nat.min_def] at hl
      have hM : MAX_NAME_LENGTH = 60 := rfl
      simp only [List.length_nil] at hl
      split at hl <;> omega
    · rw [← subPunct_take, subPunct_idem]
    · exact List.length_take_le _ _
    · intro c hc
      exact subPunct_no_punct x c (List.mem_of_mem_take hc)
  · simp only [if_neg h]
    refine ⟨?_, subPunct_idem x, by omega, subPunct_no_punct x⟩
    intro he
    have := subPunct_length x
    rw [he] at this
    exact hx (List.length_eq_zero.mp this.symm)

/-- A nonempty, punctuation-stable string within the length bound is a fixed
point of `normalize_name` for any `missing_value`. -/
lemma normalize_name_fix (s m : Str) (h1 : s ≠ []) (h2 : subPunct s = s)
    (h3 : s.length ≤ MAX_NAME_LENGTH) : normalize_name s m = s := by
  unfold normalize_name
  simp only [if_neg h1, h2]
  rw [if_neg (Nat.not_lt.mpr h3)]

lemma normalize_name_nil (m : Str) : normalize_name [] m = m := by
  unfold normalize_name
  simp

/-- C9: the normalization function is idempotent: for every input string `x`,
with the missing-value argument being any of the sentinels the program passes
(including the `None` used for `albumartist`),
`normalize_name (normalize_name x m) m = normalize_name x m`. -/
theorem C9_normalize_idempotent (x m : Str) (hm : m ∈ sentinels) :
    normalize_name (normalize_name x m) m = normalize_name x m := by
  by_cases hx : x = []
  · subst hx
    rw [normalize_name_nil]
    fin_cases hm <;> decide
  · obtain ⟨h1, h2, h3, _⟩ := normalize_name_props x m hx
    exact normalize_name_fix _ m h1 h2 h3

/-- Witness for C9 at the concrete input `"a:b"` with the genre sentinel. -/
theorem C9_normalize_idempotent_witness :
    "UNKNOWN_GENRE".toList ∈ sentinels ∧
      normalize_name (normalize_name "a:b".toList "UNKNOWN_GENRE".toList) "UNKNOWN_GENRE".toList
        = normalize_name "a:b".toList "UNKNOWN_GENRE".toList :=
  ⟨by decide, C9_normalize_idempotent "a:b".toList "UNKNOWN_GENRE".toList (by decide)⟩

/-- C10: for every input string, with the missing-value argument being any of
the sentinels the program passes, the output of `normalize_name` has length at
most 60 and contains no character of the punctuation set
`{: ! @ # $ % ^ & * / \ ? < > "}`. -/
theorem C10_normalize_bounded (x m : Str) (hm : m ∈ sentinels) :
    (normalize_name x m).length ≤ MAX_NAME_LENGTH ∧
      ∀ c ∈ normalize_name x m, c ∉ PUNCTUATION := by
  by_cases hx : x = []
  · subst hx
    rw [normalize_name_nil]
    fin_cases hm <;> exact ⟨by decide, by decide⟩
  · obtain ⟨_, _, h3, h4⟩ := normalize_name_props x m hx
    exact ⟨h3, h4⟩

/-- Witness for C10 at the concrete input `"AC/DC: really * loud!"` with the
artist sentinel. -/
theorem C10_normalize_bounded_witness :
    "UNKNOWN_ARTIST".toList ∈ sentinels ∧
      (normalize_name "AC/DC: really * loud!".toList "UNKNOWN_ARTIST".toList).length ≤ MAX_NAME_LENGTH ∧
      ∀ c ∈ normalize_name "AC/DC: really * loud!".toList "UNKNOWN_ARTIST".toList, c ∉ PUNCTUATION :=
  ⟨by decide, C10_normalize_bounded "AC/DC: really * loud!".toList "UNKNOWN_ARTIST".toList (by decide)⟩

/-! ### Track-number parsing (C4) -/

/-- C4 (code bug): a `tracknumber` of the form `N/M` does yield the
zero-padded `N`, but a bare-number `tracknumber` such as `7` does NOT yield
`07` with a `FileRecord`: the unused `track_width = len(track_split[1])` line
raises `IndexError`, the catch-all in `process_mp3` logs the failure, and the
file is dropped from the record collection. -/
theorem C4_bare_track_crashes :
    track_string_of "7/10".toList = .ok "07".toList ∧
    track_string_of "7".toList = .error "IndexError: list index out of range" ∧
    process_mp3 "/in".toList "x.mp3".toList "/out".toList
        (some { tracknumber := "7".toList, genre := "Rock".toList }) [] []
      = .ok ([], [Event.logFileError "/in/x.mp3".toList]) :=
  ⟨rfl, rfl, rfl⟩

/-! ### Empty scan (C8) -/

/-- C8 (code bug): on a scan that discovers zero mp3 files the record
collection is empty, `pd.DataFrame.from_records([])` has no columns, and
`df.sort_values('new_filename')` raises `KeyError` — the run does NOT complete
normally. -/
theorem C8_empty_scan_raises (dest_dir_base : Str) (fs : List Str) (dry_run : Bool) :
    process_mp3s [] dest_dir_base fs dry_run = .error "KeyError: 'new_filename'" := rfl

/-! ### Artist-for-sort fallback (C6) -/

/-- C6 (counterexample): with both `artistsort` and `artist` absent, the
directory field is `UNKNOWN_ARTISTSORT`, not the `UNKNOWN_ARTIST` sentinel the
claim names. -/
theorem C6_counterexample :
    artist_for_sort [] [] = "UNKNOWN_ARTISTSORT".toList ∧
      artist_for_sort [] [] ≠ "UNKNOWN_ARTIST".toList := by decide

/-- C6 (amended): the artist-for-sort field equals the normalized `artistsort`
tag when present (nonempty), else the normalized `artist` tag when present,
else the sentinel `UNKNOWN_ARTISTSORT`. -/
theorem C6_artist_for_sort_amended (artistsort artist : Str) :
    (artistsort ≠ [] →
      artist_for_sort artistsort artist = normalize_name artistsort "UNKNOWN_ARTISTSORT".toList) ∧
    (artistsort = [] → artist ≠ [] →
      artist_for_sort artistsort artist = normalize_name artist "UNKNOWN_ARTISTSORT".toList) ∧
    (artistsort = [] → artist = [] →
      artist_for_sort artistsort artist = "UNKNOWN_ARTISTSORT".toList) := by
  unfold artist_for_sort
  refine ⟨fun h => by rw [if_neg h], fun h1 _ => by rw [if_pos h1], fun h1 h2 => ?_⟩
  subst h1; subst h2
  decide

/-- Witness for C6 (amended), covering all three branches at concrete inputs. -/
theorem C6_artist_for_sort_amended_witness :
    ("AS".toList ≠ ([] : Str) ∧
      artist_for_sort "AS".toList "A".toList
        = normalize_name "AS".toList "UNKNOWN_ARTISTSORT".toList) ∧
    (artist_for_sort [] "A".toList = normalize_name "A".toList "UNKNOWN_ARTISTSORT".toList) ∧
    (artist_for_sort [] [] = "UNKNOWN_ARTISTSORT".toList) :=
  ⟨⟨by decide, (C6_artist_for_sort_amended "AS".toList "A".toList).1 (by decide)⟩,
   (C6_artist_for_sort_amended [] "A".toList).2.1 rfl (by decide),
   (C6_artist_for_sort_amended [] []).2.2 rfl rfl⟩

/-! ### Template selection (C7) -/

/-- C7 (counterexample): a tag set on which presence vs. absence of
`albumartist` yields the SAME target path.  With
`artist = album = "07" = track_string` and `artistsort = albumartist = "07"`,
both templates assemble `/m/Rock/07/1980 - 07/07 - 1980 - 07 - 07 - T.mp3`.
The `albumartist` value `"07"` is nonempty after normalization, so the claim's
hypothesis is met. -/
theorem C7_counterexample :
    normalize_name "07".toList [] ≠ [] ∧
    (process_mp3_body "/x".toList "/m".toList
        (some { genre := "Rock".toList, artistsort := "07".toList, artist := "07".toList,
                albumartist := "07".toList, date := "1980-01-01".toList, album := "07".toList,
                tracknumber := "7/10".toList, title := "T".toList }) []).map (·.new_filename)
      = (process_mp3_body "/x".toList "/m".toList
        (some { genre := "Rock".toList, artistsort := "07".toList, artist := "07".toList,
                albumartist := [], date := "1980-01-01".toList, album := "07".toList,
                tracknumber := "7/10".toList, title := "T".toList }) []).map (·.new_filename) :=
  ⟨by decide, rfl⟩

/-- In `xs ++ '/' :: us = ys ++ '/' :: vs`, if neither `xs` nor `ys` contains
`'/'` then `xs = ys` (the first separator is uniquely located). -/
lemma slashFree_sep {xs ys us vs : Str} (hx : '/' ∉ xs) (hy : '/' ∉ ys)
    (h : xs ++ '/' :: us = ys ++ '/' :: vs) : xs = ys := by
  induction xs generalizing ys with
  | nil =>
    cases ys with
    | nil => rfl
    | cons d ds =>
      simp only [List.nil_append, List.cons_append, List.cons.injEq] at h
      apply absurd _ hy
      rw [← h.1]
      exact List.mem_cons_self _ _
  | cons c cs ih =>
    cases ys with
    | nil =>
      simp only [List.nil_append, List.cons_append, List.cons.injEq] at h
      apply absurd _ hx
      rw [h.1]
      exact List.mem_cons_self _ _
    | cons d ds =>
      simp only [List.cons_append, List.cons.injEq] at h
      have := ih (fun hm => hx (List.mem_cons_of_mem _ hm))
        (fun hm => hy (List.mem_cons_of_mem _ hm)) h.2
      rw [h.1, this]

/-- `'/'` never occurs in a normalization output whose `missing_value` is
slash-free (the substitution replaces `'/'` by `'_'`). -/
lemma normalize_no_slash (x m : Str) (hm : '/' ∉ m) : '/' ∉ normalize_name x m := by
  by_cases hx : x = []
  · subst hx; rw [normalize_name_nil]; exact hm
  · intro hin
    exact (normalize_name_props x m hx).2.2.2 _ hin (by decide)

/-- C7 (amended): with identical other tag values, presence vs. absence of
`albumartist` yields different target paths WHENEVER the normalized
`albumartist` differs from the artist-for-sort directory value; when the two
coincide the paths can collapse (see the counterexample). -/
theorem C7_template_amended (rawGenre rawAlbumartist rawArtistsort rawArtist rawYear rawAlbum
      rawTrack rawTitle : Str)
    (hpresent : normalize_name rawAlbumartist [] ≠ [])
    (hdiff : normalize_name rawAlbumartist [] ≠ artist_for_sort rawArtistsort rawArtist) :
    choose_new_name (normalize_name rawGenre "UNKNOWN_GENRE".toList)
        (normalize_name rawAlbumartist []) (artist_for_sort rawArtistsort rawArtist)
        (normalize_name rawArtist "UNKNOWN_ARTIST".toList)
        (normalize_name rawYear "UNKNOWN_YEAR".toList)
        (normalize_name rawAlbum "UNKNOWN_ALBUM".toList)
        (normalize_name rawTrack "UNKNOWN_TRACK".toList)
        (normalize_name rawTitle "UNKNOWN_TITLE".toList)
      ≠ choose_new_name (normalize_name rawGenre "UNKNOWN_GENRE".toList) []
        (artist_for_sort rawArtistsort rawArtist)
        (normalize_name rawArtist "UNKNOWN_ARTIST".toList)
        (normalize_name rawYear "UNKNOWN_YEAR".toList)
        (normalize_name rawAlbum "UNKNOWN_ALBUM".toList)
        (normalize_name rawTrack "UNKNOWN_TRACK".toList)
        (normalize_name rawTitle "UNKNOWN_TITLE".toList) := by
  intro heq
  unfold choose_new_name at heq
  rw [if_pos hpresent, if_neg (by simp)] at heq
  simp only [List.append_assoc, List.cons_append] at heq
  have heq2 := List.append_cancel_left heq
  have heq3 := (List.cons.injEq .. ▸ heq2 : _ ∧ _).2
  have haa : '/' ∉ normalize_name rawAlbumartist [] :=
    normalize_no_slash _ _ (List.not_mem_nil '/')
  have has : '/' ∉ artist_for_sort rawArtistsort rawArtist :=
    normalize_no_slash _ _ (by decide)
  exact hdiff (slashFree_sep haa has heq3)

/-- Witness for C7 (amended) at concrete distinct albumartist/artistsort
values. -/
theorem C7_template_amended_witness :
    normalize_name "AA".toList [] ≠ [] ∧
    normalize_name "AA".toList [] ≠ artist_for_sort "AS".toList "A".toList ∧
    choose_new_name (normalize_name "Rock".toList "UNKNOWN_GENRE".toList)
        (normalize_name "AA".toList []) (artist_for_sort "AS".toList "A".toList)
        (normalize_name "A".toList "UNKNOWN_ARTIST".toList)
        (normalize_name "1980".toList "UNKNOWN_YEAR".toList)
        (normalize_name "B".toList "UNKNOWN_ALBUM".toList)
        (normalize_name "01".toList "UNKNOWN_TRACK".toList)
        (normalize_name "T".toList "UNKNOWN_TITLE".toList)
      ≠ choose_new_name (normalize_name "Rock".toList "UNKNOWN_GENRE".toList) []
        (artist_for_sort "AS".toList "A".toList)
        (normalize_name "A".toList "UNKNOWN_ARTIST".toList)
        (normalize_name "1980".toList "UNKNOWN_YEAR".toList)
        (normalize_name "B".toList "UNKNOWN_ALBUM".toList)
        (normalize_name "01".toList "UNKNOWN_TRACK".toList)
        (normalize_name "T".toList "UNKNOWN_TITLE".toList) :=
  ⟨by decide, by decide,
    C7_template_amended "Rock".toList "AA".toList "AS".toList "A".toList "1980".toList
      "B".toList "01".toList "T".toList (by decide) (by decide)⟩

/-! ### Per-file extraction failures (C5) -/

/-- C5 (code bug): the fail-soft contract fails for exactly the case the claim
highlights.  When `easyid3.EasyID3(filename)` itself raises, the `except`
handler references the never-assigned local `f`, and the resulting
`UnboundLocalError` escapes `process_mp3`, aborting the whole batch instead of
logging and continuing: a three-file batch whose middle file cannot be opened
collects nothing and raises.  By contrast, an exception raised after the tag
structure was opened (the bare-`7` `IndexError`, where `f` is bound) is
genuinely caught, logged, and skipped without producing a record. -/
theorem C5_open_failure_aborts :
    collectRecords "/out".toList []
        [⟨"/r".toList, "a.mp3".toList, some { tracknumber := "1/9".toList }⟩,
         ⟨"/r".toList, "bad.mp3".toList, none⟩,
         ⟨"/r".toList, "b.mp3".toList, some { tracknumber := "2/9".toList }⟩]
      = .error "UnboundLocalError: local variable f referenced before assignment" ∧
    process_mp3 "/r".toList "bt.mp3".toList "/out".toList
        (some { tracknumber := "7".toList }) [] []
      = .ok ([], [Event.logFileError "/r/bt.mp3".toList]) :=
  ⟨rfl, rfl⟩

/-! ### Pre-existing collisions (C2) -/

lemma build_record_original (filename dest_dir_base : Str) (tags : Tags) (fs : List Str)
    (ts : Str) : (build_record filename dest_dir_base tags fs ts).original_filename = filename := rfl

lemma build_record_collision (filename dest_dir_base : Str) (tags : Tags) (fs : List Str)
    (ts : Str) :
    (build_record filename dest_dir_base tags fs ts).collision
      = if decide ((build_record filename dest_dir_base tags fs ts).new_filename ≠ filename)
           && decide ((build_record filename dest_dir_base tags fs ts).new_filename ∈ fs)
        then some PREEXISTING_FILE else none := rfl

/-- C2: (1) a produced record carries the `'PREEXISTING FILE'` mark exactly
when its new path differs from its original path and the new path exists on
disk at record-creation time; (2) if any record in a collection is so marked,
the planner logs all marked records' `new_filename` values and stops before
the execution phase with the filesystem untouched (no directory made, no
rename done, and nothing printed). -/
theorem C2_preexisting (filename dest_dir_base : Str) (tags? : Option Tags) (fs : List Str)
    (r : Record) (records : List Record) (dry_run : Bool)
    (hok : process_mp3_body filename dest_dir_base tags? fs = .ok r)
    (hmarked : ∃ s ∈ records, s.collision ≠ none) :
    (r.original_filename = filename ∧
      (r.collision = some PREEXISTING_FILE ↔
        r.new_filename ≠ r.original_filename ∧ r.new_filename ∈ fs)) ∧
    (∃ pre, process_mp3s_plan records fs dry_run
        = .ok ([Event.logPreexisting pre], initState fs) ∧
      ∀ s ∈ records, s.collision ≠ none → s.new_filename ∈ pre) := by
  constructor
  · -- part (1): invert the body and read off the collision field
    cases tags? with
    | none => exact absurd hok (by simp [process_mp3_body])
    | some tags =>
      simp only [process_mp3_body] at hok
      cases hts : track_string_of tags.tracknumber with
      | error e => rw [hts] at hok; cases hok
      | ok ts =>
        rw [hts] at hok
        cases hok
        rw [build_record_original]
        constructor
        · rfl
        · rw [build_record_collision]
          by_cases h1 : (build_record filename dest_dir_base tags fs ts).new_filename ≠ filename
            <;> by_cases h2 : (build_record filename dest_dir_base tags fs ts).new_filename ∈ fs
            <;> simp [h1, h2, PREEXISTING_FILE]
  · -- part (2): the planner takes the pre-existing-collision branch
    obtain ⟨s, hs, hcol⟩ := hmarked
    have hne : records ≠ [] := List.ne_nil_of_mem hs
    have hperm := List.perm_insertionSort recLe records
    have hsmem : s ∈ List.insertionSort recLe records := (List.mem_insertionSort recLe).mpr hs
    have hfil : s ∈ (List.insertionSort recLe records).filter (fun r => r.collision ≠ none) :=
      List.mem_filter.mpr ⟨hsmem, by simpa using hcol⟩
    have hprene :
        ((List.insertionSort recLe records).filter (fun r => r.collision ≠ none)).map
          (·.new_filename) ≠ [] := by
      intro hnil
      rw [List.map_eq_nil_iff] at hnil
      rw [hnil] at hfil
      cases hfil
    refine ⟨((List.insertionSort recLe records).filter (fun r => r.collision ≠ none)).map
      (·.new_filename), ?_, ?_⟩
    · unfold process_mp3s_plan
      rw [if_neg hne, if_pos hprene]
    · intro t ht htcol
      exact List.mem_map.mpr ⟨t,
        List.mem_filter.mpr ⟨(List.mem_insertionSort recLe).mpr ht, by simpa using htcol⟩, rfl⟩

/-- Witness for C2: a record whose target exists on disk; the planner aborts
with the pre-existing listing. -/
theorem C2_preexisting_witness :
    process_mp3_body "/d/x.mp3".toList "/d".toList
        (some { genre := "x.mp3".toList, tracknumber := "1/2".toList }) ["/d/x.mp3".toList]
      = .ok ⟨"/d/x.mp3".toList,
          "/d/x.mp3/UNKNOWN_ARTISTSORT/UNKNOWN_YEAR - UNKNOWN_ALBUM/UNKNOWN_ARTIST - UNKNOWN_YEAR - UNKNOWN_ALBUM - 01 - UNKNOWN_TITLE.mp3".toList,
          true, none⟩ ∧
    (∃ s ∈ [(⟨"/a".toList, "/d/y.mp3".toList, true, some PREEXISTING_FILE⟩ : Record)],
      s.collision ≠ none) ∧
    (∃ pre, process_mp3s_plan [⟨"/a".toList, "/d/y.mp3".toList, true, some PREEXISTING_FILE⟩]
        ["/d/x.mp3".toList] true = .ok ([Event.logPreexisting pre], initState ["/d/x.mp3".toList]) ∧
      ∀ s ∈ [(⟨"/a".toList, "/d/y.mp3".toList, true, some PREEXISTING_FILE⟩ : Record)],
        s.collision ≠ none → s.new_filename ∈ pre) :=
  ⟨rfl, ⟨⟨"/a".toList, "/d/y.mp3".toList, true, some PREEXISTING_FILE⟩, by simp, by simp⟩,
    (C2_preexisting "/d/x.mp3".toList "/d".toList
        (some { genre := "x.mp3".toList, tracknumber := "1/2".toList }) ["/d/x.mp3".toList]
        ⟨"/d/x.mp3".toList,
          "/d/x.mp3/UNKNOWN_ARTISTSORT/UNKNOWN_YEAR - UNKNOWN_ALBUM/UNKNOWN_ARTIST - UNKNOWN_YEAR - UNKNOWN_ALBUM - 01 - UNKNOWN_TITLE.mp3".toList,
          true, none⟩
        [⟨"/a".toList, "/d/y.mp3".toList, true, some PREEXISTING_FILE⟩] true rfl
        ⟨⟨"/a".toList, "/d/y.mp3".toList, true, some PREEXISTING_FILE⟩, by simp, by simp⟩).2⟩

/-! ### Same-run collisions (C1) -/

/-- C1 (counterexample): two records with distinct original paths sharing one
new path, where that new path also exists on disk (so both are marked
pre-existing, exactly as `process_mp3` would mark them).  The run aborts in the
pre-existing branch: its whole output is the `logPreexisting` line, and the
colliding original paths are never printed — contradicting the claim that the
collision listing is printed for every such collection. -/
theorem C1_counterexample :
    ("/a1".toList : Str) ≠ "/a2".toList ∧
    process_mp3s_plan
        [⟨"/a1".toList, "/d/x.mp3".toList, true, some PREEXISTING_FILE⟩,
         ⟨"/a2".toList, "/d/x.mp3".toList, true, some PREEXISTING_FILE⟩]
        ["/d/x.mp3".toList] true
      = .ok ([Event.logPreexisting ["/d/x.mp3".toList, "/d/x.mp3".toList]],
          initState ["/d/x.mp3".toList]) ∧
    printedCsvLines [Event.logPreexisting ["/d/x.mp3".toList, "/d/x.mp3".toList]] = [] :=
  ⟨by decide, rfl, rfl⟩

lemma countP_two {l : List Record} {r s : Record} (p : Record → Bool) (hr : r ∈ l) (hs : s ∈ l)
    (hne : r ≠ s) (hpr : p r = true) (hps : p s = true) : 2 ≤ l.countP p := by
  induction l with
  | nil => cases hr
  | cons a t ih =>
    rw [List.countP_cons]
    rcases List.mem_cons.mp hr with rfl | hr'
    · rcases List.mem_cons.mp hs with rfl | hs'
      · exact absurd rfl hne
      · have h1 : 0 < t.countP p := List.countP_pos_iff.mpr ⟨s, hs', hps⟩
        rw [if_pos hpr]
        omega
    · rcases List.mem_cons.mp hs with rfl | hs'
      · have h1 : 0 < t.countP p := List.countP_pos_iff.mpr ⟨r, hr', hpr⟩
        rw [if_pos hps]
        omega
      · have h2 := ih hr' hs'
        have h3 : (if p a = true then 1 else 0) = 1 ∨ (if p a = true then 1 else 0) = 0 := by
          by_cases h : p a = true <;> simp [h]
        omega

/-- C1 (amended): provided no record carries a pre-existing-collision mark
(otherwise the run aborts earlier, in the pre-existing branch, without the
listing), a collection in which two records with distinct original paths share
one new path makes the run abort with the filesystem untouched, printing via
the csv listing the original path of every record whose new path is shared —
and nothing else. -/
theorem C1_new_collisions_amended (records : List Record) (fs : List Str) (dry_run : Bool)
    (hpre : ∀ r ∈ records, r.collision = none)
    (hcoll : ∃ r ∈ records, ∃ s ∈ records,
      r.original_filename ≠ s.original_filename ∧ r.new_filename = s.new_filename) :
    ∃ lines, process_mp3s_plan records fs dry_run
        = .ok ([Event.logNewCollisions, Event.printCsv lines], initState fs) ∧
      (∀ r ∈ records,
        2 ≤ records.countP (fun s => decide (s.new_filename = r.new_filename)) →
          r.original_filename ∈ lines) ∧
      (∀ l ∈ lines, ∃ r ∈ records,
        2 ≤ records.countP (fun s => decide (s.new_filename = r.new_filename)) ∧
          r.original_filename = l) := by
  obtain ⟨r, hr, s, hs, hneq, hnew⟩ := hcoll
  have hne : records ≠ [] := List.ne_nil_of_mem hr
  have hperm := List.perm_insertionSort recLe records
  -- the pre-existing filter is empty
  have hfil : (List.insertionSort recLe records).filter (fun r => r.collision ≠ none) = [] := by
    rw [List.filter_eq_nil_iff]
    intro a ha
    simp [hpre a (hperm.mem_iff.mp ha)]
  -- counting is invariant under the sorting permutation
  have hcount : ∀ t : Record,
      (List.insertionSort recLe records).countP
          (fun s => decide (s.new_filename = t.new_filename))
        = records.countP (fun s => decide (s.new_filename = t.new_filename)) :=
    fun t => hperm.countP_eq _
  have hrcount : 2 ≤ records.countP (fun x => decide (x.new_filename = r.new_filename)) :=
    countP_two _ hr hs (fun h => hneq (congrArg Record.original_filename h))
      (by simp) (by simp [hnew])
  have hrmem : r ∈ (List.insertionSort recLe records).filter
      (fun x => 2 ≤ (List.insertionSort recLe records).countP
        (fun s => decide (s.new_filename = x.new_filename))) :=
    List.mem_filter.mpr ⟨(List.mem_insertionSort recLe).mpr hr, by
      simp only [hcount, decide_eq_true_eq]
      exact hrcount⟩
  have hrows : (List.insertionSort recLe records).filter
      (fun x => 2 ≤ (List.insertionSort recLe records).countP
        (fun s => decide (s.new_filename = x.new_filename))) ≠ [] :=
    List.ne_nil_of_mem hrmem
  have hpre_nil : ((List.insertionSort recLe records).filter
      (fun r => r.collision ≠ none)).map (·.new_filename) = [] := by
    rw [hfil, List.map_nil]
  refine ⟨((List.insertionSort recLe records).filter
      (fun x => 2 ≤ (List.insertionSort recLe records).countP
        (fun s => decide (s.new_filename = x.new_filename)))).map (·.original_filename),
    ?_, ?_, ?_⟩
  · unfold process_mp3s_plan
    rw [if_neg hne, if_neg (fun h => h hpre_nil), if_pos hrows]
  · intro t ht htc
    exact List.mem_map.mpr ⟨t, List.mem_filter.mpr ⟨(List.mem_insertionSort recLe).mpr ht, by
      simp only [hcount, decide_eq_true_eq]; exact htc⟩, rfl⟩
  · intro l hl
    obtain ⟨t, htmem, rfl⟩ := List.mem_map.mp hl
    obtain ⟨hts, htc⟩ := List.mem_filter.mp htmem
    simp only [decide_eq_true_eq] at htc
    refine ⟨t, hperm.mem_iff.mp hts, ?_, rfl⟩
    rw [← hcount t]
    exact htc

/-- Witness for C1 (amended): two unmarked records with distinct originals and
one shared new path. -/
theorem C1_new_collisions_amended_witness :
    (∀ r ∈ [(⟨"/a1".toList, "/d/x.mp3".toList, true, none⟩ : Record),
            ⟨"/a2".toList, "/d/x.mp3".toList, true, none⟩], r.collision = none) ∧
    (∃ r ∈ [(⟨"/a1".toList, "/d/x.mp3".toList, true, none⟩ : Record),
            ⟨"/a2".toList, "/d/x.mp3".toList, true, none⟩], ∃ s ∈
        [(⟨"/a1".toList, "/d/x.mp3".toList, true, none⟩ : Record),
         ⟨"/a2".toList, "/d/x.mp3".toList, true, none⟩],
      r.original_filename ≠ s.original_filename ∧ r.new_filename = s.new_filename) ∧
    (∃ lines, process_mp3s_plan
        [⟨"/a1".toList, "/d/x.mp3".toList, true, none⟩,
         ⟨"/a2".toList, "/d/x.mp3".toList, true, none⟩] [] true
        = .ok ([Event.logNewCollisions, Event.printCsv lines], initState []) ∧
      (∀ r ∈ [(⟨"/a1".toList, "/d/x.mp3".toList, true, none⟩ : Record),
              ⟨"/a2".toList, "/d/x.mp3".toList, true, none⟩],
        2 ≤ List.countP (fun s => decide (s.new_filename = r.new_filename))
              [(⟨"/a1".toList, "/d/x.mp3".toList, true, none⟩ : Record),
               ⟨"/a2".toList, "/d/x.mp3".toList, true, none⟩] →
          r.original_filename ∈ lines) ∧
      (∀ l ∈ lines, ∃ r ∈ [(⟨"/a1".toList, "/d/x.mp3".toList, true, none⟩ : Record),
              ⟨"/a2".toList, "/d/x.mp3".toList, true, none⟩],
        2 ≤ List.countP (fun s => decide (s.new_filename = r.new_filename))
              [(⟨"/a1".toList, "/d/x.mp3".toList, true, none⟩ : Record),
               ⟨"/a2".toList, "/d/x.mp3".toList, true, none⟩] ∧
          r.original_filename = l)) :=
  ⟨by decide, by decide,
    C1_new_collisions_amended
      [⟨"/a1".toList, "/d/x.mp3".toList, true, none⟩,
       ⟨"/a2".toList, "/d/x.mp3".toList, true, none⟩] [] true (by decide) (by decide)⟩

/-! ### Dry-run equivalence (C3) -/

lemma execLoop_dry_state : ∀ (rs : List Record) (st : FsState) (evs : List Event),
    (execLoop true rs st evs).2 = st := by
  intro rs
  induction rs with
  | nil => intro st evs; rfl
  | cons r rest ih =>
    intro st evs
    simp only [execLoop]
    by_cases h1 : '\"' ∈ r.original_filename
    · rw [if_pos h1]
    · rw [if_neg h1]
      by_cases h2 : '\"' ∈ r.new_filename
      · rw [if_pos h2]
      · rw [if_neg h2]
        by_cases h3 : fsExists st r.new_filename = true
        · rw [if_pos h3]
        · rw [if_neg h3]
          simp only [if_true]
          exact ih st _

lemma pairwise_of_countP_le_one {l : List Record}
    (h : ∀ r ∈ l, l.countP (fun s => decide (s.new_filename = r.new_filename)) ≤ 1) :
    l.Pairwise (fun a b => a.new_filename ≠ b.new_filename) := by
  induction l with
  | nil => exact List.Pairwise.nil
  | cons a t ih =>
    rw [List.pairwise_cons]
    constructor
    · intro b hb heq
      have ha := h a (List.mem_cons_self a t)
      rw [List.countP_cons] at ha
      have h0 : 0 < t.countP (fun s => decide (s.new_filename = a.new_filename)) :=
        List.countP_pos_iff.mpr ⟨b, hb, by simp [heq]⟩
      rw [if_pos (by simp)] at ha
      omega
    · apply ih
      intro r hr
      have hra := h r (List.mem_cons_of_mem a hr)
      rw [List.countP_cons] at hra
      omega

lemma execLoop_events_eq (fs : List Str) : ∀ (rs : List Record) (st : FsState) (evs : List Event),
    (∀ r ∈ rs, r.new_filename ∉ st.paths) →
    (∀ r ∈ rs, r.new_filename ∉ st.dirs_made) →
    (∀ r ∈ rs, r.new_filename ∉ fs) →
    rs.Pairwise (fun a b => a.new_filename ≠ b.new_filename) →
    (∀ r ∈ rs, ∀ s ∈ rs, r.new_filename ∉ ancestors (dirname s.new_filename)) →
    (execLoop false rs st evs).1 = (execLoop true rs (initState fs) evs).1 := by
  intro rs
  induction rs with
  | nil => intros; rfl
  | cons r rest ih =>
    intro st evs h1 h2 h3 hpw h5
    simp only [execLoop]
    by_cases hq1 : '\"' ∈ r.original_filename
    · rw [if_pos hq1, if_pos hq1]
    · rw [if_neg hq1, if_neg hq1]
      by_cases hq2 : '\"' ∈ r.new_filename
      · rw [if_pos hq2, if_pos hq2]
      · rw [if_neg hq2, if_neg hq2]
        have hrmem := List.mem_cons_self r rest
        have hex1 : fsExists st r.new_filename = false := by
          unfold fsExists
          simp [h1 r hrmem, h2 r hrmem]
        have hex2 : fsExists (initState fs) r.new_filename = false := by
          unfold fsExists initState
          simp [h3 r hrmem]
        rw [if_neg (show ¬fsExists st r.new_filename = true by simp [hex1]),
          if_neg (show ¬fsExists (initState fs) r.new_filename = true by simp [hex2]),
          if_neg Bool.false_ne_true]
        simp only [if_true]
        apply ih
        · intro s hsr hmem
          have hsneq : r.new_filename ≠ s.new_filename := (List.pairwise_cons.mp hpw).1 s hsr
          rcases List.mem_append.mp hmem with hmem1 | hmem2
          · exact h1 s (List.mem_cons_of_mem _ hsr) (List.mem_of_mem_erase hmem1)
          · have heq : s.new_filename = r.new_filename := by simpa using hmem2
            exact hsneq heq.symm
        · intro s hsr hmem
          rcases List.mem_append.mp hmem with hmem1 | hmem2
          · exact h2 s (List.mem_cons_of_mem _ hsr) hmem1
          · exact h5 s (List.mem_cons_of_mem _ hsr) r hrmem hmem2
        · intro s hsr
          exact h3 s (List.mem_cons_of_mem _ hsr)
        · exact (List.pairwise_cons.mp hpw).2
        · intro a ha b hb
          exact h5 a (List.mem_cons_of_mem _ ha) b (List.mem_cons_of_mem _ hb)

/-- C3: for a record collection satisfying the spec's FileRecord invariants —
the collision mark agrees with the on-disk state at plan time (`hcons`, which
is how `process_mp3` creates records), and no record's new path is an ancestor
directory of another's (`hanc`, which holds for template-shaped paths since
normalized segments contain no `/`) — the dry run performs no filesystem
mutation (its final state is the untouched `initState`) and its log/print
output is identical to the non-dry-run output on the same collection. -/
theorem C3_dry_run (records : List Record) (fs : List Str)
    (hne : records ≠ [])
    (hcons : ∀ r ∈ records, (r.collision ≠ none ↔ (r.name_changed = true ∧ r.new_filename ∈ fs)))
    (hanc : ∀ r ∈ records, ∀ s ∈ records,
      r.new_filename ∉ ancestors (dirname s.new_filename)) :
    ∃ evs stWet, process_mp3s_plan records fs false = .ok (evs, stWet) ∧
      process_mp3s_plan records fs true = .ok (evs, initState fs) := by
  have hperm := List.perm_insertionSort recLe records
  simp only [process_mp3s_plan, if_neg hne]
  by_cases hpre : ((List.insertionSort recLe records).filter
      (fun r => r.collision ≠ none)).map (·.new_filename) ≠ []
  · rw [if_pos hpre, if_pos hpre]
    exact ⟨_, _, rfl, rfl⟩
  · rw [if_neg hpre, if_neg hpre]
    by_cases hco : (List.insertionSort recLe records).filter
        (fun x => 2 ≤ (List.insertionSort recLe records).countP
          (fun s => decide (s.new_filename = x.new_filename))) ≠ []
    · rw [if_pos hco, if_pos hco]
      exact ⟨_, _, rfl, rfl⟩
    · rw [if_neg hco, if_neg hco]
      rw [not_not] at hpre hco
      have hnone : ∀ r ∈ List.insertionSort recLe records, r.collision = none := by
        intro r hrs
        have h := List.filter_eq_nil_iff.mp (List.map_eq_nil_iff.mp hpre) r hrs
        simpa using h
      have hnotfs : ∀ r ∈ (List.insertionSort recLe records).filter (·.name_changed),
          r.new_filename ∉ fs := by
        intro r hrf hmem
        obtain ⟨hrs, hch⟩ := List.mem_filter.mp hrf
        exact (hcons r (hperm.mem_iff.mp hrs)).mpr ⟨hch, hmem⟩ (hnone r hrs)
      have hcount_le : ∀ r ∈ List.insertionSort recLe records,
          (List.insertionSort recLe records).countP
            (fun s => decide (s.new_filename = r.new_filename)) ≤ 1 := by
        intro r hrs
        have h := List.filter_eq_nil_iff.mp hco r hrs
        have h' : ¬2 ≤ (List.insertionSort recLe records).countP
            (fun s => decide (s.new_filename = r.new_filename)) := by simpa using h
        omega
      have hpw : ((List.insertionSort recLe records).filter (·.name_changed)).Pairwise
          (fun a b => a.new_filename ≠ b.new_filename) :=
        (pairwise_of_countP_le_one hcount_le).sublist (List.filter_sublist _)
      have hanc' : ∀ r ∈ (List.insertionSort recLe records).filter (·.name_changed),
          ∀ s ∈ (List.insertionSort recLe records).filter (·.name_changed),
            r.new_filename ∉ ancestors (dirname s.new_filename) := by
        intro r hrf s hsf
        exact hanc r (hperm.mem_iff.mp (List.mem_filter.mp hrf).1)
          s (hperm.mem_iff.mp (List.mem_filter.mp hsf).1)
      have hev := execLoop_events_eq fs ((List.insertionSort recLe records).filter
          (·.name_changed)) (initState fs) [] hnotfs (fun r _ h => List.not_mem_nil _ h)
        hnotfs hpw hanc'
      have hst := execLoop_dry_state ((List.insertionSort recLe records).filter
        (·.name_changed)) (initState fs) []
      refine ⟨(execLoop false ((List.insertionSort recLe records).filter (·.name_changed))
          (initState fs) []).1,
        (execLoop false ((List.insertionSort recLe records).filter (·.name_changed))
          (initState fs) []).2, rfl, ?_⟩
      have hpair : execLoop true ((List.insertionSort recLe records).filter (·.name_changed))
          (initState fs) []
          = ((execLoop false ((List.insertionSort recLe records).filter (·.name_changed))
              (initState fs) []).1, initState fs) := by
        calc execLoop true ((List.insertionSort recLe records).filter (·.name_changed))
              (initState fs) []
            = ((execLoop true ((List.insertionSort recLe records).filter (·.name_changed))
                (initState fs) []).1,
               (execLoop true ((List.insertionSort recLe records).filter (·.name_changed))
                (initState fs) []).2) := rfl
          _ = _ := by rw [hst, ← hev]
      rw [hpair]

/-- Witness for C3: one consistent changed record; dry run and wet run print
the same `mv` line, and the dry run leaves the filesystem untouched. -/
theorem C3_dry_run_witness :
    ([(⟨"/in/a.mp3".toList, "/m/G/S/1980 - B/f.mp3".toList, true, none⟩ : Record)] ≠ []) ∧
    (∀ r ∈ [(⟨"/in/a.mp3".toList, "/m/G/S/1980 - B/f.mp3".toList, true, none⟩ : Record)],
      (r.collision ≠ none ↔ (r.name_changed = true ∧ r.new_filename ∈ ["/in/a.mp3".toList]))) ∧
    (∀ r ∈ [(⟨"/in/a.mp3".toList, "/m/G/S/1980 - B/f.mp3".toList, true, none⟩ : Record)],
      ∀ s ∈ [(⟨"/in/a.mp3".toList, "/m/G/S/1980 - B/f.mp3".toList, true, none⟩ : Record)],
        r.new_filename ∉ ancestors (dirname s.new_filename)) ∧
    (∃ evs stWet,
      process_mp3s_plan [⟨"/in/a.mp3".toList, "/m/G/S/1980 - B/f.mp3".toList, true, none⟩]
          ["/in/a.mp3".toList] false = .ok (evs, stWet) ∧
      process_mp3s_plan [⟨"/in/a.mp3".toList, "/m/G/S/1980 - B/f.mp3".toList, true, none⟩]
          ["/in/a.mp3".toList] true = .ok (evs, initState ["/in/a.mp3".toList])) :=
  ⟨by decide, by decide, by decide,
    C3_dry_run [⟨"/in/a.mp3".toList, "/m/G/S/1980 - B/f.mp3".toList, true, none⟩]
      ["/in/a.mp3".toList] (by decide) (by decide) (by decide)⟩
